import Mathlib

set_option linter.unusedVariables false

/-! Verification of the settlement and ledger logic of src/app.py, a poker
tournament bookkeeping app.  Sheet rows are read by load_players_df, which
parses the four numeric columns with pd.to_numeric(errors="coerce"): a
missing or non-numeric cell becomes NaN, modelled here as `none`.  The
dataframe is modelled as a list of rows paired with their pandas index
labels, because load_players_df sorts by created_at without resetting the
index: the labels remain the original sheet positions, and they are what
reset_index(drop=False) later turns into the _orig_index tie-break
column. -/

/-- One row of the players sheet after the numeric conversion done by
load_players_df.  The four numeric columns are `Option Int`: `none` stands
for NaN, i.e. a missing or non-numeric cell. -/
structure Row where
  player_id : String
  name : String
  team : String
  skill : String
  initial_buyin : Option Int
  rebuy_total : Option Int
  rebuy_count : Option Int
  final_stack : Option Int
  created_at : String
  updated_at : String
  deriving DecidableEq

/-- Lexicographic comparison of character lists by code point, the order
Python uses on str values; written by structural recursion so that it
evaluates inside the kernel. -/
def lexLE : List Char → List Char → Bool
  | [], _ => true
  | _ :: _, [] => false
  | a :: as, b :: bs =>
    if a.toNat < b.toNat then true
    else if b.toNat < a.toNat then false
    else lexLE as bs

/-- Python string comparison a <= b, by code point. -/
def strLE (a b : String) : Bool := lexLE a.data b.data

/-- Column total_buyin added by compute_profit_and_adjusted:
initial_buyin.fillna(0) + rebuy_total.fillna(0), so a NaN in either
column is treated as zero. -/
def Row.total_buyin (r : Row) : Int :=
  r.initial_buyin.getD 0 + r.rebuy_total.getD 0

/-- Column profit added by compute_profit_and_adjusted:
final_stack - total_buyin.  It is NaN (`none`) exactly when final_stack
is NaN, since total_buyin never is. -/
def Row.profit (r : Row) : Option Int :=
  r.final_stack.map (fun fs => fs - r.total_buyin)

/-- Python round applied to the float p / 2.  For odd p the fraction is
exactly one half, and Python rounds half to even; for even p the division
is exact. -/
def roundHalfDiv2 (p : Int) : Int :=
  if p % 2 = 0 then p / 2
  else if (p / 2) % 2 = 0 then p / 2 else p / 2 + 1

/-- The inner function adjust_profit of compute_profit_and_adjusted
(src/app.py lines 132-149), on a non-NaN profit value: the four-way
sign/skill rule.  Skills are the source strings "beginner" and
"experienced"; every skill other than "experienced" takes the beginner
branch, exactly as the Python if/else does.  In the times-two branches
round is the identity, in the divide-by-two branches it is Python round
of p / 2. -/
def adjust_profit_val (p : Int) (skill : String) : Int :=
  if 0 ≤ p then
    if skill = "experienced" then roundHalfDiv2 p else p * 2
  else
    if skill = "experienced" then p * 2 else roundHalfDiv2 p

/-- Column adjusted_profit added by compute_profit_and_adjusted: None when
profit is NaN, otherwise the adjusted value. -/
def Row.adjusted_profit (r : Row) : Option Int :=
  r.profit.map (fun p => adjust_profit_val p r.skill)

/-- The dataframe as built by load_players_df before its created_at sort:
each sheet row paired with its pandas index label, which is its position
on the stored sheet. -/
def label_rows (rows : List Row) : List (Nat × Row) := rows.enum

/-- The relation of the created_at sort of load_players_df, lifted to
labelled rows. -/
def createdLE (a b : Nat × Row) : Prop :=
  strLE a.2.created_at b.2.created_at = true

instance : DecidableRel createdLE := fun a b => by
  unfold createdLE; infer_instance

/-- The ordering step of load_players_df (src/app.py line 99): a stable
sort of the labelled rows by created_at ascending.  The index is not
reset, so the sheet-position labels ride along.  The source asks for
kind="mergesort"; createdLE is a total preorder (lexLE_total and
lexLE_trans below), and a stable sort with respect to a total preorder
has a unique result, so the stable insertion sort used here returns the
same list as the stable mergesort of pandas. -/
def load_order (l : List (Nat × Row)) : List (Nat × Row) :=
  l.insertionSort createdLE

/-- The order realised by sort_for_ranking: pandas
sort_values(by=[key, "_orig_index"], ascending=[False, True]) puts a
before b when a has the larger key, or an equal key and the smaller
original sheet index label. -/
def rankR (key : Row → Int) (a b : Nat × Row) : Prop :=
  key b.2 < key a.2 ∨ (key a.2 = key b.2 ∧ a.1 ≤ b.1)

instance (key : Row → Int) : DecidableRel (rankR key) := fun a b => by
  unfold rankR; infer_instance

/-- sort_for_ranking from src/app.py lines 156-169 on a labelled frame:
reset_index(drop=False) turns the existing index labels — the original
sheet positions, because load_players_df never reset them after its
created_at sort — into the column _orig_index, and the frame is sorted
by (key descending, _orig_index ascending) with kind="mergesort".  The
labels are distinct in every frame the app builds, so rankR is a total
order on the sorted elements and the stable mergesort of pandas returns
exactly the sorted order computed here. -/
def sort_for_ranking (key : Row → Int) (l : List (Nat × Row)) : List (Nat × Row) :=
  l.insertionSort (rankR key)

/-- Sum of a column the way pandas sum does it: NaN entries are skipped
and the empty sum is 0. -/
def nanSum (l : List (Option Int)) : Int := (l.filterMap id).sum

/-- One row of the groupby("team") aggregate table of src/app.py lines
572-575. -/
structure TeamAgg where
  team : String
  profit_sum : Int
  adjusted_profit_sum : Int
  deriving DecidableEq

/-- groupby("team").agg(profit_sum, adjusted_profit_sum): the group keys
are the distinct team values in ascending order (pandas sorts group keys)
and each group sums its profit and adjusted_profit columns with NaN
skipped, so rows with no final_stack contribute nothing. -/
def team_agg (rows : List Row) : List TeamAgg :=
  ((rows.map Row.team).dedup.insertionSort (fun a b => strLE a b = true)).map (fun t =>
    { team := t
      profit_sum := nanSum ((rows.filter (fun r => r.team = t)).map Row.profit)
      adjusted_profit_sum :=
        nanSum ((rows.filter (fun r => r.team = t)).map Row.adjusted_profit) })

/-- The order of the team table sort of src/app.py lines 577-580:
sort_values(by=["profit_sum", "team"], ascending=[False, True]).  Team
keys are distinct after the groupby, so this is a total order on the
table rows and the sort result is the unique sorted arrangement. -/
def teamR (a b : TeamAgg) : Prop :=
  b.profit_sum < a.profit_sum ∨ (a.profit_sum = b.profit_sum ∧ strLE a.team b.team = true)

instance : DecidableRel teamR := fun a b => by
  unfold teamR; infer_instance

/-- The single team table the settlement block produces: the aggregate
sorted by summed profit descending with ties broken by team ascending.
No second, handicap-ordered team table is built anywhere in main. -/
def team_ranking (rows : List Row) : List TeamAgg :=
  (team_agg rows).insertionSort teamR

/-- Everything the aggregation block of main (src/app.py lines 498-592)
derives from the loaded dataframe; the two individual rankings keep the
sheet index labels of their frames, as the pandas frames do. -/
structure SettlementView where
  pending_warning : Option String
  profit_ranking : List (Nat × Row)
  adjusted_ranking : List (Nat × Row)
  team_table : List TeamAgg
  deriving DecidableEq

/-- The fixed warning text of src/app.py line 502; it names no player. -/
def pending_warning_text : String :=
  "⚠ 一部プレイヤーの最終Stackが未入力です。そのプレイヤーの収支は計算されません。"

/-- Ranking key taken from the profit column; the callers filter to rows
where the column is non-NaN first, so the default is never read. -/
def keyProfit (r : Row) : Int := r.profit.getD 0

/-- Ranking key taken from the adjusted_profit column. -/
def keyAdjusted (r : Row) : Int := r.adjusted_profit.getD 0

/-- The aggregation block of main: the warning is the fixed text, shown
exactly when some final_stack is NaN; the two individual rankings are
sort_for_ranking applied to the dropna-filtered computed frame (dropna
keeps the index labels); the team table is the single sorted groupby
table, for which the labels are irrelevant. -/
def settlement_view (l : List (Nat × Row)) : SettlementView :=
  { pending_warning :=
      if l.any (fun p => p.2.final_stack.isNone) then some pending_warning_text else none
    profit_ranking := sort_for_ranking keyProfit (l.filter (fun p => p.2.profit.isSome))
    adjusted_ranking :=
      sort_for_ranking keyAdjusted (l.filter (fun p => p.2.adjusted_profit.isSome))
    team_table := team_ranking (l.map Prod.snd) }

/-- The names of the rows whose final_stack is absent.  The source never
builds this list; it is defined here only to compare against the view. -/
def pending_names (rows : List Row) : List String :=
  (rows.filter (fun r => r.final_stack.isNone)).map Row.name

/-- The settlement step as an action on the stored sheet: it returns the
view together with the sheet unchanged, reflecting that the aggregation
block of main never calls write_players_df. -/
def settlement_action (l : List (Nat × Row)) : SettlementView × List (Nat × Row) :=
  (settlement_view l, l)

/-- The user-visible validation failures of the form handlers. -/
inductive LedgerError where
  | InvalidAmount
  | NothingToUndo
  | EmptyName
  deriving DecidableEq

/-- Modelled from the spec: the rebuy_history column exists only in other
revisions of app.py that are not under src/; this state carries it next to
the stored rebuy_total and rebuy_count columns. -/
structure RebuyState where
  rebuy_total : Int
  rebuy_count : Int
  rebuy_history : List Int
  deriving DecidableEq

/-- Modelled from the spec: the history append is absent from the src/
revision.  The guard and the two increments are the Rebuy button handler
of src/app.py lines 439-448: a non-positive amount is rejected with an
error message, otherwise rebuy_total grows by the amount and rebuy_count
by one; per spec section 4.2 the amount is also appended to the history. -/
def add_rebuy (r : RebuyState) (amount : Int) : Except LedgerError RebuyState :=
  if amount ≤ 0 then .error .InvalidAmount
  else .ok { rebuy_total := r.rebuy_total + amount
             rebuy_count := r.rebuy_count + 1
             rebuy_history := r.rebuy_history ++ [amount] }

/-- Modelled from the spec: no undo handler exists in the src/ revision.
Per spec section 4.2, undo fails with NothingToUndo when the history is
empty, and otherwise pops the last entry, subtracting it from rebuy_total
and one from rebuy_count; the results are clamped at zero, because the
spec says undo must never drive rebuy_total or rebuy_count negative (the
prescribed logging of such a desynchronized state has no observable state
here). -/
def undo_rebuy (r : RebuyState) : Except LedgerError RebuyState :=
  match r.rebuy_history.getLast? with
  | none => .error .NothingToUndo
  | some last =>
      .ok { rebuy_total := max (r.rebuy_total - last) 0
            rebuy_count := max (r.rebuy_count - 1) 0
            rebuy_history := r.rebuy_history.dropLast }

/-- The add_player_form handler of src/app.py lines 345-366.  The only
guard is Python truthiness of the name string: `if not name` rejects the
empty string and nothing else, so no trimming happens.  The uuid4 value
and the datetime.now() stamp are passed in explicitly as fresh_id and
now; the new row starts with zero rebuys and no final_stack. -/
def register (rows : List Row) (fresh_id now name team skill : String)
    (initial_buyin : Int) : Except LedgerError (List Row) :=
  if name = "" then .error .EmptyName
  else .ok (rows ++ [{ player_id := fresh_id, name := name, team := team, skill := skill
                       initial_buyin := some initial_buyin, rebuy_total := some 0
                       rebuy_count := some 0, final_stack := none
                       created_at := now, updated_at := now }])

/-- Round half to even on the rationals, the rounding rule implemented by
Python round; this is the specification-side rounding used to state the
handicap claim. -/
def rndHalfEven (q : ℚ) : ℤ :=
  if q - ⌊q⌋ < 1/2 then ⌊q⌋
  else if (1 : ℚ)/2 < q - ⌊q⌋ then ⌊q⌋ + 1
  else if ⌊q⌋ % 2 = 0 then ⌊q⌋ else ⌊q⌋ + 1

/-- The claim-side trimming of surrounding whitespace, written directly on
the character list so that it evaluates inside the kernel: drop whitespace
characters from both ends. -/
def spec_trim (s : String) : String :=
  ⟨((s.data.dropWhile Char.isWhitespace).reverse.dropWhile Char.isWhitespace).reverse⟩

/-- Example settled row: team CSE, experienced, buyin 100, final 200,
so profit 100 and adjusted profit 50. -/
def exSettledCSE : Row :=
  ⟨"id-a", "Alice", "CSE", "experienced", some 100, some 0, some 0, some 200,
   "2024-01-01T10:00:00", "2024-01-01T10:00:00"⟩

/-- Example settled row: team RC, beginner, buyin 100, final 190, so
profit 90 and adjusted profit 180. -/
def exSettledRC : Row :=
  ⟨"id-b", "Bob", "RC", "beginner", some 100, some 0, some 0, some 190,
   "2024-01-01T10:05:00", "2024-01-01T10:05:00"⟩

/-- Example pending row (no final_stack) named Carol. -/
def exPending1 : Row :=
  ⟨"id-c", "Carol", "RC", "beginner", some 1000, some 0, some 0, none,
   "2024-01-01T10:10:00", "2024-01-01T10:10:00"⟩

/-- Example pending row identical to the previous one except for its name
and identifier. -/
def exPending2 : Row :=
  ⟨"id-d", "Dave", "RC", "beginner", some 1000, some 0, some 0, none,
   "2024-01-01T10:10:00", "2024-01-01T10:10:00"⟩

/-- Example settled row whose initial_buyin and rebuy_total cells are
missing (NaN after to_numeric). -/
def exMissing : Row :=
  ⟨"id-e", "Eve", "CSE", "beginner", none, none, none, some 100,
   "2024-01-01T10:15:00", "2024-01-01T10:15:00"⟩

/-- Example settled row with profit 50 and the later created_at of a tie
pair; stored first on the sheet. -/
def exLate : Row :=
  ⟨"id-f", "Fay", "CSE", "beginner", some 100, some 0, some 0, some 150,
   "2024-01-01T10:05:00", "2024-01-01T10:05:00"⟩

/-- Example settled row with the same profit 50 and the earlier
created_at; stored second on the sheet. -/
def exEarly : Row :=
  ⟨"id-g", "Gil", "RC", "beginner", some 100, some 0, some 0, some 150,
   "2024-01-01T10:00:00", "2024-01-01T10:00:00"⟩

theorem lexLE_refl (l : List Char) : lexLE l l = true := by
  induction l with
  | nil => rfl
  | cons a as ih => simp [lexLE, ih]

theorem lexLE_total (l₁ l₂ : List Char) : lexLE l₁ l₂ = true ∨ lexLE l₂ l₁ = true := by
  induction l₁ generalizing l₂ with
  | nil => left; rfl
  | cons a as ih =>
    cases l₂ with
    | nil => right; rfl
    | cons b bs =>
      by_cases hab : a.toNat < b.toNat
      · left; simp [lexLE, hab]
      · by_cases hba : b.toNat < a.toNat
        · right; simp [lexLE, hba]
        · rcases ih bs with h | h
          · left; simp [lexLE, hab, hba, h]
          · right; simp [lexLE, hab, hba, h]

theorem lexLE_trans (l₁ l₂ l₃ : List Char) (h₁ : lexLE l₁ l₂ = true)
    (h₂ : lexLE l₂ l₃ = true) : lexLE l₁ l₃ = true := by
  induction l₁ generalizing l₂ l₃ with
  | nil => rfl
  | cons a as ih =>
    cases l₂ with
    | nil => simp [lexLE] at h₁
    | cons b bs =>
      cases l₃ with
      | nil => simp [lexLE] at h₂
      | cons c cs =>
        by_cases hab : a.toNat < b.toNat
        · by_cases hbc : b.toNat < c.toNat
          · simp [lexLE, show a.toNat < c.toNat from Nat.lt_trans hab hbc]
          · by_cases hcb : c.toNat < b.toNat
            · simp [lexLE, hbc, hcb] at h₂
            · simp [lexLE, show a.toNat < c.toNat by omega]
        · by_cases hba : b.toNat < a.toNat
          · simp [lexLE, hab, hba] at h₁
          · simp only [lexLE, if_neg hab, if_neg hba] at h₁
            by_cases hbc : b.toNat < c.toNat
            · simp [lexLE, show a.toNat < c.toNat by omega]
            · by_cases hcb : c.toNat < b.toNat
              · simp [lexLE, hbc, hcb] at h₂
              · simp only [lexLE, if_neg hbc, if_neg hcb] at h₂
                simp only [lexLE, if_neg (show ¬ a.toNat < c.toNat by omega),
                  if_neg (show ¬ c.toNat < a.toNat by omega)]
                exact ih bs cs h₁ h₂

instance (key : Row → Int) : IsTrans (Nat × Row) (rankR key) :=
  ⟨by intro a b c hab hbc; unfold rankR at *; omega⟩

instance (key : Row → Int) : IsTotal (Nat × Row) (rankR key) :=
  ⟨by intro a b; unfold rankR; omega⟩

instance : IsTrans (Nat × Row) createdLE :=
  ⟨fun a b c hab hbc => lexLE_trans _ _ _ hab hbc⟩

instance : IsTotal (Nat × Row) createdLE :=
  ⟨fun a b => lexLE_total _ _⟩

instance : IsTrans TeamAgg teamR :=
  ⟨by
    intro a b c hab hbc
    unfold teamR at *
    rcases hab with h1 | ⟨h1, h2⟩ <;> rcases hbc with h3 | ⟨h3, h4⟩
    · exact Or.inl (by omega)
    · exact Or.inl (by omega)
    · exact Or.inl (by omega)
    · exact Or.inr ⟨by omega, lexLE_trans _ _ _ h2 h4⟩⟩

instance : IsTotal TeamAgg teamR :=
  ⟨by
    intro a b
    unfold teamR
    rcases lt_trichotomy a.profit_sum b.profit_sum with h | h | h
    · exact Or.inr (Or.inl h)
    · rcases lexLE_total a.team.data b.team.data with ht | ht
      · exact Or.inl (Or.inr ⟨h, ht⟩)
      · exact Or.inr (Or.inr ⟨h.symm, ht⟩)
    · exact Or.inl (Or.inl h)⟩

theorem load_order_sorted (l : List (Nat × Row)) :
    (load_order l).Pairwise createdLE :=
  List.sorted_insertionSort createdLE l

theorem rndHalfEven_intCast (n : ℤ) : rndHalfEven ((n : ℤ) : ℚ) = n := by
  unfold rndHalfEven
  rw [Int.floor_intCast]
  norm_num

theorem rndHalfEven_half (p : ℤ) : rndHalfEven ((p : ℚ) / 2) = roundHalfDiv2 p := by
  rcases Int.even_or_odd p with ⟨k, hk⟩ | ⟨k, hk⟩
  · subst hk
    have hc : ((k + k : ℤ) : ℚ) / 2 = ((k : ℤ) : ℚ) := by push_cast; ring
    rw [hc, rndHalfEven_intCast]
    have h3 : (k + k) % 2 = 0 := by omega
    have h4 : (k + k) / 2 = k := by omega
    simp [roundHalfDiv2, h3, h4]
  · subst hk
    have hq : ((2 * k + 1 : ℤ) : ℚ) / 2 = (k : ℚ) + 1 / 2 := by push_cast; ring
    have hfloor : ⌊(k : ℚ) + 1 / 2⌋ = k := by
      rw [add_comm, Int.floor_add_int]
      norm_num
    have e1 : ¬ (2 * k + 1) % 2 = 0 := by omega
    have e2 : (2 * k + 1) / 2 = k := by omega
    unfold rndHalfEven roundHalfDiv2
    rw [hq, hfloor]
    simp only [e1, e2, if_false]
    have hfrac : (k : ℚ) + 1 / 2 - (k : ℤ) = 1 / 2 := by ring
    rw [hfrac]
    have hlt : ¬ ((1 : ℚ) / 2 < 1 / 2) := lt_irrefl _
    rw [if_neg hlt, if_neg hlt]

/-- C1: for every integer profit value and both skill levels (novice is
the source string "beginner", expert is "experienced"), the stored
handicap equals the four-way rule of the spec with one single rounding
rule, round half to even, applied in every branch; profit 0 gives
handicap 0 for every skill string; the result is an integer by type. -/
theorem handicap_four_way_rule (p : ℤ) (novice : Bool) :
    (adjust_profit_val p (if novice then "beginner" else "experienced") =
      if 0 ≤ p then
        if novice then rndHalfEven ((p : ℚ) * 2) else rndHalfEven ((p : ℚ) * (1 / 2))
      else
        if novice then rndHalfEven ((p : ℚ) * (1 / 2)) else rndHalfEven ((p : ℚ) * 2))
    ∧ (∀ s : String, adjust_profit_val 0 s = 0) := by
  have h2 : rndHalfEven ((p : ℚ) * 2) = p * 2 := by
    have hc : ((p * 2 : ℤ) : ℚ) = (p : ℚ) * 2 := by push_cast; ring
    rw [← hc, rndHalfEven_intCast]
  have hh : rndHalfEven ((p : ℚ) * 2⁻¹) = roundHalfDiv2 p := by
    have hc : (p : ℚ) * 2⁻¹ = (p : ℚ) / 2 := by ring
    rw [hc, rndHalfEven_half]
  refine ⟨?_, ?_⟩
  · cases novice <;>
      simp [adjust_profit_val, h2, hh,
        show ("beginner" : String) ≠ "experienced" from by decide]
  · intro s
    by_cases hs : s = "experienced"
    · subst hs; decide
    · simp [adjust_profit_val, hs]

/-- C2: for every settled record (final_stack present) the computed profit
column is exactly final_stack minus (initial_buyin + rebuy_total), where a
missing or non-numeric initial_buyin or rebuy_total cell (`none`) counts
as zero; the computation is total, so no error is raised. -/
theorem profit_formula (r : Row) (fs : Int) (h : r.final_stack = some fs) :
    r.profit = some (fs - (r.initial_buyin.getD 0 + r.rebuy_total.getD 0)) := by
  simp [Row.profit, Row.total_buyin, h]

/-- Witness for the profit formula at a concrete settled row whose buyin
cells are both missing. -/
theorem profit_formula_witness :
    exMissing.final_stack = some 100 ∧
    exMissing.profit = some (100 - (exMissing.initial_buyin.getD 0 + exMissing.rebuy_total.getD 0)) :=
  ⟨rfl, profit_formula exMissing 100 rfl⟩

/-- C6: adding a re-buy fails with InvalidAmount exactly when the amount
is non-positive, and otherwise appends the amount to the history, adds it
to rebuy_total and adds one to rebuy_count. -/
theorem add_rebuy_spec (r : RebuyState) (amount : Int) :
    (add_rebuy r amount = .error .InvalidAmount ↔ amount ≤ 0) ∧
    (0 < amount →
      add_rebuy r amount =
        .ok ⟨r.rebuy_total + amount, r.rebuy_count + 1, r.rebuy_history ++ [amount]⟩) := by
  constructor
  · constructor
    · intro h
      by_contra hn
      simp [add_rebuy, if_neg (show ¬ amount ≤ 0 by omega)] at h
    · intro h
      simp [add_rebuy, h]
  · intro h
    simp [add_rebuy, show ¬ amount ≤ 0 by omega]

/-- Witness for the re-buy addition at a concrete record and amount. -/
theorem add_rebuy_spec_witness :
    (0 : ℤ) < 500 ∧
    add_rebuy ⟨0, 0, []⟩ 500 = .ok ⟨0 + 500, 0 + 1, [] ++ [500]⟩ :=
  ⟨by decide, (add_rebuy_spec ⟨0, 0, []⟩ 500).2 (by decide)⟩

/-- C7: for every record satisfying the data-model invariant of spec
section 3 (rebuy_total is the sum and rebuy_count the length of the
history of positive amounts — under which the clamp at zero of spec
section 4.2 never engages), undo fails with NothingToUndo exactly on an
empty history (the failure carries no state, so the record is unchanged),
otherwise it pops the last entry, subtracting its amount from rebuy_total
and one from rebuy_count; and an add followed by an undo restores the
original record exactly. -/
theorem undo_rebuy_spec (r : RebuyState) (amount : Int) (pre : List Int) (last : Int)
    (hsum : r.rebuy_total = r.rebuy_history.sum)
    (hlen : r.rebuy_count = (r.rebuy_history.length : Int))
    (hpos : ∀ x ∈ r.rebuy_history, 0 < x) :
    (undo_rebuy r = .error .NothingToUndo ↔ r.rebuy_history = []) ∧
    (r.rebuy_history = pre ++ [last] →
      undo_rebuy r = .ok ⟨r.rebuy_total - last, r.rebuy_count - 1, pre⟩) ∧
    (0 < amount → (add_rebuy r amount).bind undo_rebuy = .ok r) := by
  refine ⟨⟨?_, ?_⟩, ?_, ?_⟩
  · intro herr
    rcases List.eq_nil_or_concat r.rebuy_history with hnil | ⟨L, b, hcat⟩
    · exact hnil
    · simp [undo_rebuy, hcat, List.getLast?_concat] at herr
  · intro hnil
    simp [undo_rebuy, hnil]
  · intro h
    have hps : (0 : ℤ) ≤ pre.sum :=
      List.sum_nonneg (fun x hx =>
        le_of_lt (hpos x (by rw [h]; exact List.mem_append_left _ hx)))
    have ht : last ≤ r.rebuy_total := by
      rw [hsum, h, List.sum_append, List.sum_cons, List.sum_nil]
      omega
    have hc : (1 : ℤ) ≤ r.rebuy_count := by
      rw [hlen, h]
      simp only [List.length_append, List.length_cons, List.length_nil]
      push_cast
      omega
    simp only [undo_rebuy, h, List.getLast?_concat, List.dropLast_concat]
    have h1 : max (r.rebuy_total - last) 0 = r.rebuy_total - last := max_eq_left (by omega)
    have h2 : max (r.rebuy_count - 1) 0 = r.rebuy_count - 1 := max_eq_left (by omega)
    rw [h1, h2]
  · intro ha
    have ht0 : (0 : ℤ) ≤ r.rebuy_total := by
      rw [hsum]
      exact List.sum_nonneg (fun x hx => le_of_lt (hpos x hx))
    have hc0 : (0 : ℤ) ≤ r.rebuy_count := by
      rw [hlen]
      exact Int.natCast_nonneg _
    simp only [add_rebuy, if_neg (show ¬ amount ≤ 0 by omega), Except.bind]
    simp only [undo_rebuy, List.getLast?_concat, List.dropLast_concat]
    have h1 : max (r.rebuy_total + amount - amount) 0 = r.rebuy_total := by
      rw [add_sub_cancel_right]
      exact max_eq_left ht0
    have h2 : max (r.rebuy_count + 1 - 1) 0 = r.rebuy_count := by
      rw [add_sub_cancel_right]
      exact max_eq_left hc0
    rw [h1, h2]

/-- Witness for undo at concrete invariant-satisfying records: empty
history fails, a two-entry history pops its tail, and add-then-undo
round-trips. -/
theorem undo_rebuy_spec_witness :
    (undo_rebuy ⟨0, 0, []⟩ = .error .NothingToUndo) ∧
    (undo_rebuy ⟨7, 2, [3, 4]⟩ = .ok ⟨7 - 4, 2 - 1, [3]⟩) ∧
    ((add_rebuy ⟨7, 2, [3, 4]⟩ 1000).bind undo_rebuy = .ok ⟨7, 2, [3, 4]⟩) :=
  ⟨(undo_rebuy_spec ⟨0, 0, []⟩ 1 [] 0 (by decide) (by decide) (by decide)).1.mpr rfl,
   (undo_rebuy_spec ⟨7, 2, [3, 4]⟩ 1 [3] 4 (by decide) (by decide) (by decide)).2.1 rfl,
   (undo_rebuy_spec ⟨7, 2, [3, 4]⟩ 1000 [3] 4 (by decide) (by decide) (by decide)).2.2
     (by decide)⟩

/-- C8 counterexample: the handler accepts a name consisting of a single
space, although that name trimmed of surrounding whitespace is empty, so
registration does not fail exactly when the trimmed name is empty. -/
theorem register_whitespace_name_counterexample :
    spec_trim " " = "" ∧
    register [] "id-1" "2024-01-01T00:00:00" " " "CSE" "beginner" 100 =
      .ok [⟨"id-1", " ", "CSE", "beginner", some 100, some 0, some 0, none,
            "2024-01-01T00:00:00", "2024-01-01T00:00:00"⟩] := by
  constructor
  · decide
  · rfl

/-- C8 (amended): registration fails with EmptyName exactly when the name
is the empty string (no trimming is applied); otherwise it appends a row
carrying the supplied fresh identifier, equal created_at and updated_at
stamps, zero rebuy_total and rebuy_count and an absent final_stack, and
if the supplied identifier is new the identifier column stays free of
duplicates. -/
theorem register_spec (rows : List Row) (fresh_id now name team skill : String)
    (initial_buyin : Int) :
    (register rows fresh_id now name team skill initial_buyin = .error .EmptyName ↔ name = "") ∧
    (name ≠ "" →
      register rows fresh_id now name team skill initial_buyin =
        .ok (rows ++ [{ player_id := fresh_id, name := name, team := team, skill := skill
                        initial_buyin := some initial_buyin, rebuy_total := some 0
                        rebuy_count := some 0, final_stack := none
                        created_at := now, updated_at := now }])) ∧
    (name ≠ "" → fresh_id ∉ rows.map Row.player_id → (rows.map Row.player_id).Nodup →
      ∀ out, register rows fresh_id now name team skill initial_buyin = .ok out →
        (out.map Row.player_id).Nodup) := by
  refine ⟨⟨?_, ?_⟩, ?_, ?_⟩
  · intro h
    by_contra hn
    simp [register, hn] at h
  · intro h
    simp [register, h]
  · intro h
    simp [register, h]
  · intro h hnot hnd out hout
    simp only [register, if_neg h] at hout
    obtain rfl : rows ++ [{ player_id := fresh_id, name := name, team := team, skill := skill
                            initial_buyin := some initial_buyin, rebuy_total := some 0
                            rebuy_count := some 0, final_stack := none
                            created_at := now, updated_at := now }] = out := by
      cases hout
      rfl
    simp only [List.map_append, List.map_cons, List.map_nil]
    rw [List.nodup_append]
    refine ⟨hnd, List.nodup_singleton _, ?_⟩
    intro a ha hb
    simp only [List.mem_singleton] at hb
    subst hb
    exact hnot ha

/-- Witness for registration at a concrete non-empty name. -/
theorem register_spec_witness :
    ("Alice" : String) ≠ "" ∧
    register [] "id-1" "t0" "Alice" "CSE" "beginner" 100 =
      .ok ([] ++ [{ player_id := "id-1", name := "Alice", team := "CSE", skill := "beginner"
                    initial_buyin := some 100, rebuy_total := some 0
                    rebuy_count := some 0, final_stack := none
                    created_at := "t0", updated_at := "t0" }]) :=
  ⟨by decide, (register_spec [] "id-1" "t0" "Alice" "CSE" "beginner" 100).2.1 (by decide)⟩

/-- C9: the settlement is a pure function of the snapshot: equal snapshots
give equal results, the stored sheet is returned unchanged because the
aggregation block never writes, and recomputing on the unchanged sheet
yields the same view, so recomputation is idempotent. -/
theorem settlement_pure (s t : List (Nat × Row)) (h : s = t) :
    settlement_action s = settlement_action t ∧
    (settlement_action s).2 = s ∧
    (settlement_action ((settlement_action s).2)).1 = (settlement_action s).1 := by
  subst h
  exact ⟨rfl, rfl, rfl⟩

/-- Witness for settlement purity on a concrete snapshot. -/
theorem settlement_pure_witness :
    label_rows [exSettledCSE, exPending1] = label_rows [exSettledCSE, exPending1] ∧
    (settlement_action (label_rows [exSettledCSE, exPending1]) =
       settlement_action (label_rows [exSettledCSE, exPending1]) ∧
     (settlement_action (label_rows [exSettledCSE, exPending1])).2 =
       label_rows [exSettledCSE, exPending1] ∧
     (settlement_action ((settlement_action (label_rows [exSettledCSE, exPending1])).2)).1 =
       (settlement_action (label_rows [exSettledCSE, exPending1])).1) :=
  ⟨rfl, settlement_pure (label_rows [exSettledCSE, exPending1])
    (label_rows [exSettledCSE, exPending1]) rfl⟩

/-- C10: for every key and every labelled input frame, the ranking sort
returns a permutation of its input: every row appears exactly once in the
output, with its label, and no row is added, dropped or duplicated. -/
theorem sort_for_ranking_perm (key : Row → Int) (l : List (Nat × Row)) :
    (sort_for_ranking key l).Perm l ∧
    ((sort_for_ranking key l).map Prod.snd).Perm (l.map Prod.snd) := by
  have h : (sort_for_ranking key l).Perm l := List.perm_insertionSort (rankR key) l
  exact ⟨h, h.map Prod.snd⟩

theorem sort_for_ranking_pairwise (key : Row → Int) (l : List (Nat × Row)) :
    (sort_for_ranking key l).Pairwise (fun a b =>
      key b.2 ≤ key a.2 ∧ (key a.2 = key b.2 → a.1 ≤ b.1)) := by
  refine (List.sorted_insertionSort (rankR key) l).imp ?_
  intro a b hab
  unfold rankR at hab
  exact ⟨by omega, fun hk => by omega⟩

theorem sort_for_ranking_created (key : Row → Int) (l : List (Nat × Row))
    (hlab : ∀ a ∈ l, ∀ b ∈ l, a.1 ≤ b.1 → strLE a.2.created_at b.2.created_at = true) :
    (sort_for_ranking key l).Pairwise (fun a b =>
      key a.2 = key b.2 → strLE a.2.created_at b.2.created_at = true) := by
  refine (List.sorted_insertionSort (rankR key) l).imp_of_mem ?_
  intro a b ha hb hab hk
  have ha2 : a ∈ l := (List.perm_insertionSort (rankR key) l).subset ha
  have hb2 : b ∈ l := (List.perm_insertionSort (rankR key) l).subset hb
  unfold rankR at hab
  rcases hab with h | ⟨heq, hij⟩
  · omega
  · exact hlab a ha2 b hb2 hij

theorem load_labels_consistent (raw : List Row)
    (hsorted : raw.Pairwise (fun a b => strLE a.created_at b.created_at = true)) :
    ∀ a ∈ load_order (label_rows raw), ∀ b ∈ load_order (label_rows raw),
      a.1 ≤ b.1 → strLE a.2.created_at b.2.created_at = true := by
  intro a ha b hb hij
  have ha2 : a ∈ label_rows raw := (List.perm_insertionSort createdLE (label_rows raw)).subset ha
  have hb2 : b ∈ label_rows raw := (List.perm_insertionSort createdLE (label_rows raw)).subset hb
  have hga : raw[a.1]? = some a.2 := List.mem_enum_iff_getElem?.mp ha2
  have hgb : raw[b.1]? = some b.2 := List.mem_enum_iff_getElem?.mp hb2
  rcases Nat.lt_or_ge a.1 b.1 with hlt | hge
  · obtain ⟨hia, hxa⟩ := List.getElem?_eq_some.mp hga
    obtain ⟨hib, hxb⟩ := List.getElem?_eq_some.mp hgb
    have hrel := List.pairwise_iff_getElem.mp hsorted a.1 b.1 hia hib hlt
    rw [hxa, hxb] at hrel
    exact hrel
  · have hii : a.1 = b.1 := Nat.le_antisymm hij hge
    rw [hii] at hga
    have hxx : a.2 = b.2 := Option.some.inj (hga.symm.trans hgb)
    rw [hxx]
    exact lexLE_refl _

/-- C3 counterexample: on a sheet stored out of created_at order the
profit tie is broken by the original sheet position, not by created_at:
exLate and exEarly both have profit 50, exEarly registered strictly
earlier, yet the ranking places exLate — stored first on the sheet —
above exEarly. -/
theorem ranking_tiebreak_counterexample :
    keyProfit exLate = keyProfit exEarly ∧
    strLE exLate.created_at exEarly.created_at = false ∧
    (settlement_view (load_order (label_rows [exLate, exEarly]))).profit_ranking =
      [(0, exLate), (1, exEarly)] := by
  refine ⟨by decide, by decide, by decide⟩

/-- C3 (amended): the settlement produces two individual rankings over the
settled records, by profit and by handicap profit descending; equal keys
are tie-broken by ascending original sheet position, the pandas index
label captured by reset_index — a deterministic rule, never arbitrary.
When the stored sheet is in ascending created_at order, as the app's own
append-only mutations keep it, this tie-break places the record with
earlier created_at (earlier registration) higher. -/
theorem ranking_sorted_and_tiebreak (raw : List Row) :
    (((settlement_view (load_order (label_rows raw))).profit_ranking.Pairwise (fun a b =>
        keyProfit b.2 ≤ keyProfit a.2 ∧ (keyProfit a.2 = keyProfit b.2 → a.1 ≤ b.1))) ∧
     ((settlement_view (load_order (label_rows raw))).adjusted_ranking.Pairwise (fun a b =>
        keyAdjusted b.2 ≤ keyAdjusted a.2 ∧ (keyAdjusted a.2 = keyAdjusted b.2 → a.1 ≤ b.1)))) ∧
    (raw.Pairwise (fun a b => strLE a.created_at b.created_at = true) →
      ((settlement_view (load_order (label_rows raw))).profit_ranking.Pairwise (fun a b =>
          keyProfit a.2 = keyProfit b.2 → strLE a.2.created_at b.2.created_at = true)) ∧
      ((settlement_view (load_order (label_rows raw))).adjusted_ranking.Pairwise (fun a b =>
          keyAdjusted a.2 = keyAdjusted b.2 → strLE a.2.created_at b.2.created_at = true))) := by
  constructor
  · exact ⟨sort_for_ranking_pairwise keyProfit _, sort_for_ranking_pairwise keyAdjusted _⟩
  · intro hsorted
    have hcons := load_labels_consistent raw hsorted
    constructor
    · exact sort_for_ranking_created keyProfit _
        (fun a ha b hb => hcons a (List.mem_of_mem_filter ha) b (List.mem_of_mem_filter hb))
    · exact sort_for_ranking_created keyAdjusted _
        (fun a ha b hb => hcons a (List.mem_of_mem_filter ha) b (List.mem_of_mem_filter hb))

/-- Witness for the ranking order on a concrete sheet stored in ascending
created_at order. -/
theorem ranking_sorted_and_tiebreak_witness :
    ([exSettledCSE, exSettledRC].Pairwise
      (fun a b => strLE a.created_at b.created_at = true)) ∧
    (((settlement_view (load_order (label_rows [exSettledCSE, exSettledRC]))).profit_ranking.Pairwise
        (fun a b => keyProfit a.2 = keyProfit b.2 →
          strLE a.2.created_at b.2.created_at = true)) ∧
     ((settlement_view (load_order (label_rows [exSettledCSE, exSettledRC]))).adjusted_ranking.Pairwise
        (fun a b => keyAdjusted a.2 = keyAdjusted b.2 →
          strLE a.2.created_at b.2.created_at = true))) :=
  ⟨by decide, (ranking_sorted_and_tiebreak [exSettledCSE, exSettledRC]).2 (by decide)⟩

/-- C4 counterexample: on a snapshot with two teams the single team table
produced by the settlement is ordered by summed profit descending, but it
is not ordered by summed handicap profit descending, so no team ranking
by the summed handicap metric is produced. -/
theorem team_ranking_not_by_handicap_counterexample :
    (team_ranking [exSettledCSE, exSettledRC]).Pairwise
      (fun a b => b.profit_sum ≤ a.profit_sum) ∧
    ¬ (team_ranking [exSettledCSE, exSettledRC]).Pairwise
      (fun a b => b.adjusted_profit_sum ≤ a.adjusted_profit_sum) := by
  constructor
  · decide
  · decide

/-- C4 (amended): the settlement produces one team table whose rows carry,
per team, the sum of profit and the sum of handicap profit over settled
records only (NaN entries are skipped, so pending rows contribute
nothing); the table is ordered by summed profit descending with ties
broken by team identifier ascending, and no second table ordered by the
summed handicap metric is produced. -/
theorem team_table_spec (rows : List Row) (e : TeamAgg) (he : e ∈ team_ranking rows) :
    ((team_ranking rows).Pairwise (fun a b =>
        b.profit_sum ≤ a.profit_sum ∧
        (a.profit_sum = b.profit_sum → strLE a.team b.team = true))) ∧
    (e.profit_sum = nanSum ((rows.filter (fun r => r.team = e.team)).map Row.profit) ∧
     e.adjusted_profit_sum =
       nanSum ((rows.filter (fun r => r.team = e.team)).map Row.adjusted_profit)) := by
  constructor
  · have hs : (team_ranking rows).Pairwise teamR :=
      List.sorted_insertionSort teamR (team_agg rows)
    refine hs.imp ?_
    intro a b hab
    rcases hab with h | ⟨h1, h2⟩
    · exact ⟨le_of_lt h, fun hk => absurd hk (by omega)⟩
    · exact ⟨le_of_eq h1.symm, fun _ => h2⟩
  · have he2 : e ∈ team_agg rows := (List.perm_insertionSort teamR (team_agg rows)).subset he
    unfold team_agg at he2
    rw [List.mem_map] at he2
    obtain ⟨t, ht, rfl⟩ := he2
    exact ⟨rfl, rfl⟩

/-- Witness for the team table at a concrete two-team snapshot. -/
theorem team_table_spec_witness :
    (⟨"CSE", 100, 50⟩ : TeamAgg) ∈ team_ranking [exSettledCSE, exSettledRC] ∧
    (((team_ranking [exSettledCSE, exSettledRC]).Pairwise (fun a b =>
        b.profit_sum ≤ a.profit_sum ∧
        (a.profit_sum = b.profit_sum → strLE a.team b.team = true))) ∧
     ((⟨"CSE", 100, 50⟩ : TeamAgg).profit_sum =
        nanSum (([exSettledCSE, exSettledRC].filter
          (fun r => r.team = (⟨"CSE", 100, 50⟩ : TeamAgg).team)).map Row.profit) ∧
      (⟨"CSE", 100, 50⟩ : TeamAgg).adjusted_profit_sum =
        nanSum (([exSettledCSE, exSettledRC].filter
          (fun r => r.team = (⟨"CSE", 100, 50⟩ : TeamAgg).team)).map Row.adjusted_profit))) :=
  ⟨by decide, team_table_spec [exSettledCSE, exSettledRC] ⟨"CSE", 100, 50⟩ (by decide)⟩

/-- C5 counterexample: two snapshots whose pending rows differ only in
their names produce byte-identical settlement output, so the pending
names are not surfaced to the caller; only a fixed warning is. -/
theorem pending_names_not_surfaced_counterexample :
    settlement_view (label_rows [exSettledCSE, exPending1]) =
      settlement_view (label_rows [exSettledCSE, exPending2]) ∧
    pending_names [exSettledCSE, exPending1] ≠ pending_names [exSettledCSE, exPending2] := by
  constructor
  · decide
  · decide

/-- C5 (amended): a warning — a fixed text that does not list the pending
names — is surfaced exactly when some record has no final_stack, and when
every record is pending the settlement result carries empty rankings and
is produced without error. -/
theorem pending_warning_and_empty_rankings (l : List (Nat × Row)) :
    ((settlement_view l).pending_warning = some pending_warning_text ↔
      ∃ p ∈ l, p.2.final_stack = none) ∧
    ((∀ p ∈ l, p.2.final_stack = none) →
      (settlement_view l).profit_ranking = [] ∧
      (settlement_view l).adjusted_ranking = []) := by
  constructor
  · have hshape : (settlement_view l).pending_warning =
        (if l.any (fun p => p.2.final_stack.isNone) then some pending_warning_text else none) :=
      rfl
    rw [hshape]
    cases hb : l.any (fun p => p.2.final_stack.isNone) with
    | false =>
      rw [if_neg (by simp [hb])]
      simp only [List.any_eq_false] at hb
      constructor
      · intro h
        cases h
      · rintro ⟨p, hp, h⟩
        exact absurd (show p.2.final_stack.isNone = true by simp [h]) (by simpa using hb p hp)
    | true =>
      rw [if_pos (by simp [hb])]
      simp only [List.any_eq_true] at hb
      obtain ⟨p, hp, h⟩ := hb
      constructor
      · intro _
        exact ⟨p, hp, Option.isNone_iff_eq_none.mp h⟩
      · intro _
        rfl
  · intro hall
    have hfil : l.filter (fun p => p.2.profit.isSome) = [] := by
      rw [List.filter_eq_nil_iff]
      intro p hp
      simp [Row.profit, hall p hp]
    have hfil2 : l.filter (fun p => p.2.adjusted_profit.isSome) = [] := by
      rw [List.filter_eq_nil_iff]
      intro p hp
      simp [Row.adjusted_profit, Row.profit, hall p hp]
    constructor
    · show sort_for_ranking keyProfit (l.filter (fun p => p.2.profit.isSome)) = []
      rw [hfil]
      rfl
    · show sort_for_ranking keyAdjusted (l.filter (fun p => p.2.adjusted_profit.isSome)) = []
      rw [hfil2]
      rfl

/-- Witness for the empty-settled-set behaviour on an all-pending
snapshot. -/
theorem pending_warning_and_empty_rankings_witness :
    (∀ p ∈ label_rows [exPending1], p.2.final_stack = none) ∧
    ((settlement_view (label_rows [exPending1])).profit_ranking = [] ∧
     (settlement_view (label_rows [exPending1])).adjusted_ranking = []) :=
  ⟨by decide, (pending_warning_and_empty_rankings (label_rows [exPending1])).2 (by decide)⟩
